import Mathlib

/-!
Verification of the template-construction and block-arrangement layer
(`src/library/layout.rs`): page configuration, alignment slot filling,
save/restore scoping, stack and grid direction resolution, stack child
building, and grid track-list casting.

The directive bodies are translated from the source file. The supporting
geometric types (`Axis`, `Dir`, `Gen`, `Sides`, `Align`), the layout
`State` and the `Template` operation log live outside the provided source
and are modelled from the spec's data model.
-/

namespace Typst

/-- Modelled from the spec: the two geometric axes (`Axis` is not in the
provided source). -/
inductive SpecAxis where
  | horizontal
  | vertical
deriving DecidableEq, Fintype

/-- Modelled from the spec: one of four named directions, each affiliated
with exactly one axis (`Dir` is not in the provided source). -/
inductive Dir where
  | ltr
  | rtl
  | ttb
  | btt
deriving DecidableEq, Fintype

/-- Modelled from the spec: `.axis()` maps a direction to its axis. -/
def Dir.axis : Dir → SpecAxis
  | .ltr => .horizontal
  | .rtl => .horizontal
  | .ttb => .vertical
  | .btt => .vertical

/-- Modelled from the spec: `Gen<T>` is a pair of axis-scoped values with
an `inline` and a `block` component (`Gen` is not in the provided source).
The constructor-argument order is pinned by `grid`, where
`Gen::new(column_dir, row_dir)` maps columns to the inline axis. -/
@[ext]
structure Gen (α : Type) where
  inline : α
  block : α
deriving DecidableEq, Fintype

/-- Modelled from the spec: `Gen::new(a, b)` with `a` the inline and `b`
the block component. -/
def Gen.new (a b : α) : Gen α := ⟨a, b⟩

/-- Modelled from the spec: `Gen<Option<T>>::unwrap_or` fills each unset
slot from the fallback pair. -/
def Gen.unwrapOr (g : Gen (Option α)) (other : Gen α) : Gen α :=
  ⟨g.inline.getD other.inline, g.block.getD other.block⟩

/-- A direction pair is orthogonal when its two components lie on
different axes (the State invariant from the spec's data model). -/
def orthogonal (dirs : Gen Dir) : Prop :=
  dirs.block.axis ≠ dirs.inline.axis

instance (dirs : Gen Dir) : Decidable (orthogonal dirs) := by
  unfold orthogonal; infer_instance

/-- Direction resolution of `stack` (`layout.rs` lines 209-215):
`Gen::new(None, dir).unwrap_or(state.dirs)` puts the user-supplied `dir`
in the block slot and inherits the inline slot; if the two slots end up
on one axis, the inline slot is overwritten with the ambient block
direction. -/
def stackResolveDirs (stateDirs : Gen Dir) (dir : Option Dir) : Gen Dir :=
  let dirs := Gen.unwrapOr (Gen.new none dir) stateDirs
  if dirs.block.axis = dirs.inline.axis then
    { dirs with inline := stateDirs.block }
  else
    dirs

/-- Direction resolution of `grid` (`layout.rs` lines 295-308):
`Gen::new(column_dir, row_dir).unwrap_or(state.dirs)`; on a collision the
target slot is `block` when `column_dir` was supplied and `inline`
otherwise, and the target is replaced by the ambient block direction when
the target's axis equals the ambient inline axis, else by the ambient
inline direction. -/
def gridResolveDirs (stateDirs : Gen Dir) (columnDir rowDir : Option Dir) : Gen Dir :=
  let dirs := Gen.unwrapOr (Gen.new columnDir rowDir) stateDirs
  if dirs.block.axis = dirs.inline.axis then
    if columnDir.isSome then
      { dirs with
        block :=
          if dirs.block.axis = stateDirs.inline.axis then stateDirs.block
          else stateDirs.inline }
    else
      { dirs with
        inline :=
          if dirs.inline.axis = stateDirs.inline.axis then stateDirs.block
          else stateDirs.inline }
  else
    dirs

/-- Modelled from the spec: alignment values; `Left`/`Right` are
horizontal-affine, `Top`/`Bottom` vertical-affine, and the flow-relative
values are axis-agnostic (`Align` is not in the provided source). -/
inductive Align where
  | start
  | center
  | ending
  | left
  | right
  | top
  | bottom
deriving DecidableEq, Fintype

/-- Modelled from the spec: an alignment's axis affinity, `none` for an
axis-agnostic value. -/
def Align.axis : Align → Option SpecAxis
  | .left => some .horizontal
  | .right => some .horizontal
  | .top => some .vertical
  | .bottom => some .vertical
  | _ => none

/-- One step of the positional loop of `align` (`layout.rs` lines
101-111): the Rust `match` tries the horizontal arm first (pattern
`Some(Horizontal) | None` guarded by the slot being empty), then the
vertical arm (pattern `Some(Vertical) | None` guarded likewise), else
drops the value. -/
def assignAlign (hv : Option Align × Option Align) (value : Align) :
    Option Align × Option Align :=
  if (value.axis = some .horizontal ∨ value.axis = none) ∧ hv.1 = none then
    (some value, hv.2)
  else if (value.axis = some .vertical ∨ value.axis = none) ∧ hv.2 = none then
    (hv.1, some value)
  else
    hv

/-- Slot resolution of `align` (`layout.rs` lines 94-111): named
`horizontal`/`vertical` are read first; the up-to-two positional values
are then folded over the slots in order. Returns the final
(horizontal, vertical) pair. -/
def alignResolve (first second namedHorizontal namedVertical : Option Align) :
    Option Align × Option Align :=
  (first.toList ++ second.toList).foldl assignAlign (namedHorizontal, namedVertical)

/-- Modelled from the spec: `Linear`, an affine combination of an
absolute and a relative length, with integer coefficients standing in
for the source's floating-point lengths. -/
structure Linear where
  abs : Int
  rel : Int
deriving DecidableEq

/-- Modelled from the spec: an absolute length converted into a linear. -/
def Linear.ofLength (v : Int) : Linear := ⟨v, 0⟩

/-- Modelled from the spec: a relative length converted into a linear. -/
def Linear.ofRelative (v : Int) : Linear := ⟨0, v⟩

/-- Modelled from the spec: `Sides<T>`, four independently settable
side values. -/
structure Sides (α : Type) where
  left : α
  top : α
  right : α
  bottom : α
deriving DecidableEq

/-- Modelled from the spec: `Sides::splat` sets all four sides. -/
def Sides.splat (v : α) : Sides α := ⟨v, v, v, v⟩

/-- Modelled from the spec: the page class, either a named preset's
class or custom once width/height were overridden. -/
inductive PaperClass where
  | custom
  | preset (id : Nat)
deriving DecidableEq

/-- Modelled from the spec: a page size with width and height. -/
structure PageSize where
  w : Linear
  h : Linear
deriving DecidableEq

/-- Modelled from the spec: a named paper preset carrying a class and a
size. -/
structure Paper where
  cls : PaperClass
  size : PageSize
deriving DecidableEq

/-- Modelled from the spec: the page part of the State: class, size and
margins. -/
structure PageData where
  cls : PaperClass
  size : PageSize
  margins : Sides (Option Linear)
deriving DecidableEq

/-- Modelled from the spec: the ambient layout State threaded through
replay: page geometry, current alignment pair, current direction pair. -/
structure State where
  page : PageData
  aligns : Gen Align
  dirs : Gen Dir
deriving DecidableEq

/-- The named arguments accepted by `page` (`layout.rs` lines 7-22). An
absent argument is `none`. The arguments are fetched by name, so the
order in which the caller declared them does not reach the closure. -/
structure PageArgs where
  paper : Option Paper := none
  width : Option Linear := none
  height : Option Linear := none
  margins : Option Linear := none
  left : Option Linear := none
  top : Option Linear := none
  right : Option Linear := none
  bottom : Option Linear := none
  flip : Option Bool := none
deriving DecidableEq

/-- The `Modify` closure installed by `page` (`layout.rs` lines 24-65):
preset, then width/height (marking the class custom), then the blanket
`margins`, then the per-side overrides, and last the flip swap. -/
def pageModify (a : PageArgs) (s : State) : State :=
  let p := s.page
  let p := match a.paper with
    | some paper => { p with cls := paper.cls, size := paper.size }
    | none => p
  let p := match a.width with
    | some w => { p with cls := .custom, size := { p.size with w := w } }
    | none => p
  let p := match a.height with
    | some h => { p with cls := .custom, size := { p.size with h := h } }
    | none => p
  let p := match a.margins with
    | some m => { p with margins := Sides.splat (some m) }
    | none => p
  let p := match a.left with
    | some l => { p with margins := { p.margins with left := some l } }
    | none => p
  let p := match a.top with
    | some t => { p with margins := { p.margins with top := some t } }
    | none => p
  let p := match a.right with
    | some r => { p with margins := { p.margins with right := some r } }
    | none => p
  let p := match a.bottom with
    | some b => { p with margins := { p.margins with bottom := some b } }
    | none => p
  let p := if a.flip.getD false then
      { p with size := ⟨p.size.h, p.size.w⟩ }
    else p
  { s with page := p }

/-- Modelled from the spec: one deferred Template operation. `Modify`
carries a State transformer; `content` stands for any inserted node or
spacing (state-invariant at replay); breaks are state-invariant too. -/
inductive Op where
  | modify (f : State → State)
  | content (id : Nat)
  | parbreak
  | pagebreak (strong : Bool)
  | save
  | restore

/-- Modelled from the spec: the replay context, the live State plus the
save/restore snapshot stack. -/
structure ReplayCtx where
  state : State
  stack : List State

/-- Modelled from the spec: replaying one operation. `save` pushes a
snapshot, `restore` pops back to it; a `restore` on an empty stack is a
programming error and modelled as a no-op. -/
def replayOp (c : ReplayCtx) : Op → ReplayCtx
  | .modify f => ⟨f c.state, c.stack⟩
  | .content _ => c
  | .parbreak => c
  | .pagebreak _ => c
  | .save => ⟨c.state, c.state :: c.stack⟩
  | .restore =>
    match c.stack with
    | [] => c
    | s :: rest => ⟨s, rest⟩

/-- Modelled from the spec: replaying an operation sequence in order. -/
def replay (ops : List Op) (c : ReplayCtx) : ReplayCtx :=
  ops.foldl replayOp c

/-- Modelled from the spec: the Save/Restore stack discipline — every
`save` is matched by exactly one later `restore` at the same depth. -/
inductive Balanced : List Op → Prop
  | nil : Balanced []
  | modify (f : State → State) (rest : List Op) :
      Balanced rest → Balanced (.modify f :: rest)
  | content (id : Nat) (rest : List Op) :
      Balanced rest → Balanced (.content id :: rest)
  | parbreak (rest : List Op) :
      Balanced rest → Balanced (.parbreak :: rest)
  | pagebreak (strong : Bool) (rest : List Op) :
      Balanced rest → Balanced (.pagebreak strong :: rest)
  | wrap (inner rest : List Op) :
      Balanced inner → Balanced rest →
      Balanced (.save :: (inner ++ .restore :: rest))

/-- The `Modify` closure installed by `align` (`layout.rs` lines
113-122): the horizontal value sets `aligns.inline`, the vertical value
sets `aligns.block`. -/
def applyAligns (horizontal vertical : Option Align) (s : State) : State :=
  let s := match horizontal with
    | some a => { s with aligns := { s.aligns with inline := a } }
    | none => s
  match vertical with
  | some a => { s with aligns := { s.aligns with block := a } }
  | none => s

/-- The operations `realign` appends (`layout.rs` lines 113-127): the
alignment `Modify`, then a paragraph break when a vertical alignment was
set. -/
def realignOps (horizontal vertical : Option Align) : List Op :=
  Op.modify (applyAligns horizontal vertical) ::
    (if vertical.isSome then [Op.parbreak] else [])

/-- The template `align` returns when a body is supplied (`layout.rs`
lines 129-135): `save()`, the realign operations, the body, `restore()`. -/
def alignBodyTemplate (horizontal vertical : Option Align) (body : List Op) :
    List Op :=
  Op.save :: (realignOps horizontal vertical ++ body ++ [Op.restore])

/-- Modelled from the spec: an arranged node handed to the external
measurement engine; its internals are out of scope, so an opaque
identifier stands for it. -/
structure Node where
  id : Nat
deriving DecidableEq

/-- A positional `stack` child before arrangement (`layout.rs` lines
191-194): an explicit spacing amount or a content template. -/
inductive Child where
  | spacing (v : Linear)
  | any (t : List Op)

/-- A child of a built stack (`layout.rs` + spec data model): spacing, or
an arranged node carrying its alignment pair. -/
inductive StackChild where
  | spacing (v : Linear)
  | any (node : Node) (aligns : Gen Align)
deriving DecidableEq

/-- The single left-to-right pass building the stack's child list
(`layout.rs` lines 225-245): a spacing item is pushed and clears the
`delayed` slot; a content item first flushes a pending `delayed` gap,
then is arranged (via `toStack`) and pushed with the alignment pair, and
re-arms `delayed` with the directive's default spacing. -/
def buildStackChildren (spacing : Option Linear) (aligns : Gen Align)
    (toStack : List Op → Node) : List Child → Option Linear → List StackChild
  | [], _ => []
  | .spacing v :: rest, _ =>
    .spacing v :: buildStackChildren spacing aligns toStack rest none
  | .any t :: rest, delayed =>
    (match delayed with
      | some v => [StackChild.spacing v]
      | none => []) ++
      (.any (toStack t) aligns :: buildStackChildren spacing aligns toStack rest spacing)

/-- The node descriptor produced by `stack`. -/
structure StackNode where
  dirs : Gen Dir
  children : List StackChild
deriving DecidableEq

/-- The alignment pair `stack` attaches to its content children
(`layout.rs` lines 220-223): `state.aligns`, with block and inline
swapped when the resolved block axis equals the ambient inline axis. -/
def stackChildAligns (s : State) (dir : Option Dir) : Gen Align :=
  let dirs := stackResolveDirs s.dirs dir
  if dirs.block.axis = s.dirs.inline.axis then
    Gen.new s.aligns.block s.aligns.inline
  else
    s.aligns

/-- The closure installed by `stack` (`layout.rs` lines 208-248),
assembled from direction resolution, alignment remapping and the child
pass. `toStack` stands for the external arrangement of one child
template against the live State. -/
def stackBuild (dir : Option Dir) (spacing : Option Linear) (list : List Child)
    (toStack : List Op → Node) (s : State) : StackNode :=
  { dirs := stackResolveDirs s.dirs dir
    children :=
      buildStackChildren spacing (stackChildAligns s dir) toStack list none }

/-- Grid track sizing (spec data model): content-driven, linear, or a
share of the remaining space. -/
inductive TrackSizing where
  | auto
  | linear (v : Linear)
  | fractional (v : Int)
deriving DecidableEq

/-- The dynamic values a track-list argument can be given as; `boolean`
and `str` stand for the value shapes that cast to neither a track list
nor a track sizing. -/
inductive Value where
  | auto
  | int (n : Int)
  | length (v : Int)
  | relative (v : Int)
  | linear (v : Linear)
  | fractional (v : Int)
  | array (items : List Value)
  | boolean (b : Bool)
  | str (s : String)

/-- The `TrackSizing` castable of `grid` (`layout.rs` lines 262-269):
auto, lengths, relatives and linears, and fractionals cast; everything
else fails. -/
def castTrackSizing : Value → Option TrackSizing
  | .auto => some .auto
  | .length v => some (.linear (Linear.ofLength v))
  | .relative v => some (.linear (Linear.ofRelative v))
  | .linear v => some (.linear v)
  | .fractional v => some (.fractional v)
  | _ => none

/-- The `Vec<TrackSizing>` castable of `grid` (`layout.rs` lines
253-260): an integer `count` becomes `count.max(0)` auto tracks; an
array keeps the elements that cast to a track sizing and silently drops
the rest; other value shapes fail. -/
def castTrackList : Value → Option (List TrackSizing)
  | .int count => some (List.replicate (max count 0).toNat .auto)
  | .array values => some (values.filterMap castTrackSizing)
  | _ => none

/-- The node descriptor produced by `grid`. -/
structure GridNode where
  dirs : Gen Dir
  tracks : Gen (List TrackSizing)
  gutter : Gen (List TrackSizing)
  children : List Node
deriving DecidableEq

/-- The closure installed by `grid` (`layout.rs` lines 292-319):
direction resolution plus the arrangement of every child template
against the unmodified incoming State. -/
def gridBuild (columnDir rowDir : Option Dir) (tracks gutter : Gen (List TrackSizing))
    (children : List (List Op)) (toStack : List Op → Node) (s : State) : GridNode :=
  { dirs := gridResolveDirs s.dirs columnDir rowDir
    tracks := tracks
    gutter := gutter
    children := children.map toStack }

/-- A concrete sample State used by witnesses: inline left-to-right,
block top-to-bottom, start/start alignments, empty page. -/
def sampleState : State :=
  { page := { cls := .custom, size := ⟨⟨0, 0⟩, ⟨0, 0⟩⟩, margins := Sides.splat none }
    aligns := ⟨.start, .start⟩
    dirs := ⟨.ltr, .ttb⟩ }

/-- A concrete stand-in for the external arrangement of a child
template, used by witnesses. -/
def sampleArrange : List Op → Node := fun _ => ⟨0⟩

/-- C1: for an orthogonal ambient State, when the caller-supplied `dir`
makes the block and inline slots collide on one axis, the resolved
inline direction of the produced StackNode equals the ambient block
direction and never the ambient inline direction. -/
theorem stack_collision_inline_is_ambient_block :
    ∀ (s : State) (d : Dir) (sp : Option Linear) (list : List Child)
      (f : List Op → Node),
    orthogonal s.dirs →
    (Gen.unwrapOr (Gen.new none (some d)) s.dirs).block.axis =
      (Gen.unwrapOr (Gen.new none (some d)) s.dirs).inline.axis →
    (stackBuild (some d) sp list f s).dirs.inline = s.dirs.block ∧
      (stackBuild (some d) sp list f s).dirs.inline ≠ s.dirs.inline := by
  intro s d sp list f
  have key : ∀ (sd : Gen Dir) (d : Dir),
      orthogonal sd →
      (Gen.unwrapOr (Gen.new none (some d)) sd).block.axis =
        (Gen.unwrapOr (Gen.new none (some d)) sd).inline.axis →
      (stackResolveDirs sd (some d)).inline = sd.block ∧
        (stackResolveDirs sd (some d)).inline ≠ sd.inline := by decide
  exact key s.dirs d

/-- Witness for C1 at the sample State with `dir = RTL` (colliding with
the inherited left-to-right inline slot): the resolved inline direction
is the ambient block direction TTB. -/
theorem stack_collision_inline_is_ambient_block_witness :
    orthogonal sampleState.dirs ∧
      (stackBuild (some .rtl) none [] sampleArrange sampleState).dirs.inline =
        sampleState.dirs.block :=
  ⟨by decide,
    (stack_collision_inline_is_ambient_block sampleState .rtl none [] sampleArrange
      (by decide) (by decide)).1⟩

/-- C2: in grid direction resolution, on an axis collision the rewritten
slot is `block` (rows) when `column-dir` was supplied and `inline`
otherwise, and the target is set to the ambient block direction when the
target's axis equals the ambient inline axis, else to the ambient inline
direction; the other slot is untouched. -/
theorem grid_collision_rewrites_target :
    ∀ (s : State) (cd rd : Option Dir) (tr gu : Gen (List TrackSizing))
      (ch : List (List Op)) (f : List Op → Node),
    (Gen.unwrapOr (Gen.new cd rd) s.dirs).block.axis =
      (Gen.unwrapOr (Gen.new cd rd) s.dirs).inline.axis →
    ((cd.isSome = true →
        (gridBuild cd rd tr gu ch f s).dirs.inline =
          (Gen.unwrapOr (Gen.new cd rd) s.dirs).inline ∧
        (gridBuild cd rd tr gu ch f s).dirs.block =
          (if (Gen.unwrapOr (Gen.new cd rd) s.dirs).block.axis = s.dirs.inline.axis
            then s.dirs.block else s.dirs.inline)) ∧
      (cd = none →
        (gridBuild cd rd tr gu ch f s).dirs.block =
          (Gen.unwrapOr (Gen.new cd rd) s.dirs).block ∧
        (gridBuild cd rd tr gu ch f s).dirs.inline =
          (if (Gen.unwrapOr (Gen.new cd rd) s.dirs).inline.axis = s.dirs.inline.axis
            then s.dirs.block else s.dirs.inline))) := by
  intro s cd rd tr gu ch f
  have key : ∀ (sd : Gen Dir) (cd rd : Option Dir),
      (Gen.unwrapOr (Gen.new cd rd) sd).block.axis =
        (Gen.unwrapOr (Gen.new cd rd) sd).inline.axis →
      ((cd.isSome = true →
          (gridResolveDirs sd cd rd).inline = (Gen.unwrapOr (Gen.new cd rd) sd).inline ∧
          (gridResolveDirs sd cd rd).block =
            (if (Gen.unwrapOr (Gen.new cd rd) sd).block.axis = sd.inline.axis
              then sd.block else sd.inline)) ∧
        (cd = none →
          (gridResolveDirs sd cd rd).block = (Gen.unwrapOr (Gen.new cd rd) sd).block ∧
          (gridResolveDirs sd cd rd).inline =
            (if (Gen.unwrapOr (Gen.new cd rd) sd).inline.axis = sd.inline.axis
              then sd.block else sd.inline))) := by decide
  exact key s.dirs cd rd

/-- Witness for C2 at the sample State with `column-dir = BTT` colliding
with the inherited row slot TTB: the block (row) slot is rewritten to
the ambient inline direction LTR, the supplied column slot stays BTT. -/
theorem grid_collision_rewrites_target_witness :
    (Gen.unwrapOr (Gen.new (some Dir.btt) none) sampleState.dirs).block.axis =
      (Gen.unwrapOr (Gen.new (some Dir.btt) none) sampleState.dirs).inline.axis ∧
    (gridBuild (some .btt) none ⟨[], []⟩ ⟨[], []⟩ [] sampleArrange sampleState).dirs =
      ⟨.btt, .ltr⟩ := by
  refine ⟨by decide, ?_⟩
  have h := (grid_collision_rewrites_target sampleState (some .btt) none ⟨[], []⟩
    ⟨[], []⟩ [] sampleArrange (by decide)).1 rfl
  exact Gen.ext (h.1.trans (by decide)) (h.2.trans (by decide))

/-- C5: for every orthogonal ambient State, the dirs of the StackNode
produced by `stack` and of the GridNode produced by `grid` are
themselves orthogonal, for any user-supplied direction arguments. -/
theorem resolved_dirs_orthogonal :
    ∀ (s : State) (d cd rd : Option Dir) (sp : Option Linear) (list : List Child)
      (tr gu : Gen (List TrackSizing)) (ch : List (List Op)) (f : List Op → Node),
    orthogonal s.dirs →
    orthogonal (stackBuild d sp list f s).dirs ∧
      orthogonal (gridBuild cd rd tr gu ch f s).dirs := by
  intro s d cd rd sp list tr gu ch f
  have key : ∀ (sd : Gen Dir) (d cd rd : Option Dir),
      orthogonal sd →
      orthogonal (stackResolveDirs sd d) ∧ orthogonal (gridResolveDirs sd cd rd) := by
    decide
  exact key s.dirs d cd rd

/-- Witness for C5 at the sample State with colliding arguments on both
nodes: the produced dirs are orthogonal. -/
theorem resolved_dirs_orthogonal_witness :
    orthogonal sampleState.dirs ∧
      orthogonal (stackBuild (some .rtl) none [] sampleArrange sampleState).dirs ∧
      orthogonal (gridBuild (some .btt) none ⟨[], []⟩ ⟨[], []⟩ [] sampleArrange
        sampleState).dirs := by
  have h := resolved_dirs_orthogonal sampleState (some .rtl) (some .btt) none none []
    ⟨[], []⟩ ⟨[], []⟩ [] sampleArrange (by decide)
  exact ⟨by decide, h.1, h.2⟩

/-- Every content child produced by the stack child pass carries exactly
the alignment pair the pass was given. -/
lemma any_mem_buildStackChildren (sp : Option Linear) (al : Gen Align)
    (f : List Op → Node) :
    ∀ (list : List Child) (delayed : Option Linear) (n : Node) (a : Gen Align),
    StackChild.any n a ∈ buildStackChildren sp al f list delayed → a = al := by
  intro list
  induction list with
  | nil =>
    intro delayed n a h
    simp [buildStackChildren] at h
  | cons c rest ih =>
    intro delayed n a h
    cases c with
    | spacing v =>
      simp only [buildStackChildren, List.mem_cons] at h
      rcases h with h | h
      · exact absurd h (by simp)
      · exact ih none n a h
    | any t =>
      cases delayed with
      | none =>
        simp only [buildStackChildren, List.nil_append, List.mem_cons] at h
        rcases h with h | h
        · exact (StackChild.any.injEq .. ▸ h).2
        · exact ih sp n a h
      | some v =>
        simp only [buildStackChildren, List.cons_append, List.nil_append,
          List.mem_cons] at h
        rcases h with h | h | h
        · exact absurd h (by simp)
        · exact (StackChild.any.injEq .. ▸ h).2
        · exact ih sp n a h

/-- C3: the stack child pass inserts the default gap exactly between
consecutive content items: `[A, B, C]` with default spacing `S` builds
`[Any(A), Spacing(S), Any(B), Spacing(S), Any(C)]`; `[A, Spacing(T), B]`
builds `[Any(A), Spacing(T), Any(B)]`; there is no gap before a leading
content child, and an explicit spacing item clears the pending default
gap. -/
theorem stack_spacing_insertion :
    ∀ (s : State) (dir : Option Dir) (S T : Linear) (A B C : List Op)
      (f : List Op → Node),
    (stackBuild dir (some S) [.any A, .any B, .any C] f s).children =
      [.any (f A) (stackChildAligns s dir), .spacing S,
        .any (f B) (stackChildAligns s dir), .spacing S,
        .any (f C) (stackChildAligns s dir)] ∧
    (stackBuild dir (some S) [.any A, .spacing T, .any B] f s).children =
      [.any (f A) (stackChildAligns s dir), .spacing T,
        .any (f B) (stackChildAligns s dir)] ∧
    (∀ (t : List Op) (rest : List Child) (al : Gen Align) (sp : Option Linear),
      buildStackChildren sp al f (.any t :: rest) none =
        .any (f t) al :: buildStackChildren sp al f rest sp) ∧
    (∀ (v : Linear) (rest : List Child) (al : Gen Align) (sp delayed : Option Linear),
      buildStackChildren sp al f (.spacing v :: rest) delayed =
        .spacing v :: buildStackChildren sp al f rest none) := by
  intro s dir S T A B C f
  refine ⟨rfl, rfl, fun t rest al sp => rfl,
    fun v rest al sp delayed => by cases delayed <;> rfl⟩

/-- C4: the alignment pair attached to every content child of a built
stack is `state.aligns`, with block and inline swapped exactly when the
stack's resolved block axis equals the ambient inline axis. -/
theorem stack_child_aligns_swapped_iff :
    ∀ (s : State) (dir : Option Dir) (sp : Option Linear) (list : List Child)
      (f : List Op → Node) (n : Node) (a : Gen Align),
    StackChild.any n a ∈ (stackBuild dir sp list f s).children →
    a = (if (stackBuild dir sp list f s).dirs.block.axis = s.dirs.inline.axis
          then Gen.new s.aligns.block s.aligns.inline else s.aligns) := by
  intro s dir sp list f n a h
  exact any_mem_buildStackChildren sp (stackChildAligns s dir) f list none n a h

/-- Witness for C4: a one-child stack at the sample State; the child
keeps the unswapped ambient alignments. -/
theorem stack_child_aligns_swapped_iff_witness :
    StackChild.any ⟨0⟩ ⟨.start, .start⟩ ∈
      (stackBuild none none [Child.any []] sampleArrange sampleState).children ∧
    (⟨.start, .start⟩ : Gen Align) =
      (if (stackBuild none none [Child.any []] sampleArrange sampleState).dirs.block.axis =
          sampleState.dirs.inline.axis
        then Gen.new sampleState.aligns.block sampleState.aligns.inline
        else sampleState.aligns) :=
  ⟨by decide,
    stack_child_aligns_swapped_iff sampleState none none [Child.any []] sampleArrange
      ⟨0⟩ ⟨.start, .start⟩ (by decide)⟩

/-- C6: align slot filling. `align(Top, Left)` and `align(Left, Top)`
both resolve to horizontal Left and vertical Top; `align(horizontal:
Right, Left)` keeps the named Right and leaves vertical unset; a named
value is never overwritten by a positional one; and a horizontal-affine
plus a vertical-affine positional pair resolves the same in either
order. -/
theorem align_slot_filling :
    alignResolve (some .top) (some .left) none none = (some .left, some .top) ∧
    alignResolve (some .left) (some .top) none none = (some .left, some .top) ∧
    alignResolve (some .left) none (some .right) none = (some .right, none) ∧
    (∀ (first second : Option Align) (a : Align) (namedV : Option Align),
      (alignResolve first second (some a) namedV).1 = some a) ∧
    (∀ (first second : Option Align) (namedH : Option Align) (a : Align),
      (alignResolve first second namedH (some a)).2 = some a) ∧
    (∀ (a b : Align), a.axis = some .horizontal → b.axis = some .vertical →
      alignResolve (some a) (some b) none none = (some a, some b) ∧
        alignResolve (some b) (some a) none none = (some a, some b)) := by
  refine ⟨by decide, by decide, by decide, by decide, by decide, by decide⟩

/-- Witness for C6: the order-independence conjunct applied at the
horizontal-affine Left and vertical-affine Top. -/
theorem align_slot_filling_witness :
    alignResolve (some .top) (some .left) none none =
      alignResolve (some .left) (some .top) none none :=
  ((align_slot_filling.2.2.2.2.2 .left .top (by decide) (by decide)).1).trans
    ((align_slot_filling.2.2.2.2.2 .left .top (by decide) (by decide)).2).symm

/-- Replay processes the head operation first. -/
lemma replay_cons (op : Op) (ops : List Op) (c : ReplayCtx) :
    replay (op :: ops) c = replay ops (replayOp c op) := rfl

/-- Replay of a concatenation chains the two replays. -/
lemma replay_append (a b : List Op) (c : ReplayCtx) :
    replay (a ++ b) c = replay b (replay a c) :=
  List.foldl_append replayOp c a b

/-- Balanced operation sequences are closed under concatenation. -/
lemma Balanced.append {a : List Op} (ha : Balanced a) :
    ∀ {b : List Op}, Balanced b → Balanced (a ++ b) := by
  induction ha with
  | nil => intro b hb; simpa using hb
  | modify f rest _ ih => intro b hb; exact .modify f _ (ih hb)
  | content id rest _ ih => intro b hb; exact .content id _ (ih hb)
  | parbreak rest _ ih => intro b hb; exact .parbreak _ (ih hb)
  | pagebreak strong rest _ ih => intro b hb; exact .pagebreak strong _ (ih hb)
  | wrap inner rest hi _ _ ihr =>
    intro b hb
    have heq : (Op.save :: (inner ++ Op.restore :: rest)) ++ b =
        Op.save :: (inner ++ Op.restore :: (rest ++ b)) := by simp
    rw [heq]
    exact .wrap inner (rest ++ b) hi (ihr hb)

/-- Replaying a balanced operation sequence returns the snapshot stack
to exactly where it started. -/
lemma replay_stack_of_balanced {ops : List Op} (h : Balanced ops) :
    ∀ c, (replay ops c).stack = c.stack := by
  induction h with
  | nil => intro c; rfl
  | modify f rest _ ih => intro c; exact ih _
  | content id rest _ ih => intro c; exact ih _
  | parbreak rest _ ih => intro c; exact ih _
  | pagebreak strong rest _ ih => intro c; exact ih _
  | wrap inner rest _ _ ihi ihr =>
    intro c
    rw [replay_cons, replay_append, replay_cons]
    have hstk : (replay inner (replayOp c .save)).stack = c.state :: c.stack :=
      ihi (replayOp c .save)
    revert hstk
    generalize replay inner (replayOp c .save) = r
    intro hstk
    obtain ⟨rs, rstk⟩ := r
    obtain rfl : rstk = c.state :: c.stack := hstk
    exact ihr _

/-- The realign operations are a balanced sequence. -/
lemma balanced_realignOps (horizontal vertical : Option Align) :
    Balanced (realignOps horizontal vertical) := by
  unfold realignOps
  cases vertical with
  | none => exact .modify _ _ .nil
  | some a => exact .modify _ _ (.parbreak _ .nil)

/-- Replaying the template `align` builds around a balanced body leaves
the whole replay context unchanged: the body's snapshot stack discipline
plus the outer save/restore fully revert the State. -/
lemma replay_alignBodyTemplate (horizontal vertical : Option Align)
    {body : List Op} (hb : Balanced body) (c : ReplayCtx) :
    replay (alignBodyTemplate horizontal vertical body) c = c := by
  have hpre : Balanced (realignOps horizontal vertical ++ body) :=
    (balanced_realignOps horizontal vertical).append hb
  show replay (Op.save :: (realignOps horizontal vertical ++ body ++ [Op.restore])) c = c
  rw [replay_cons, replay_append]
  have hstk : (replay (realignOps horizontal vertical ++ body) (replayOp c .save)).stack =
      c.state :: c.stack := replay_stack_of_balanced hpre _
  revert hstk
  generalize replay (realignOps horizontal vertical ++ body) (replayOp c .save) = r
  intro hstk
  obtain ⟨rs, rstk⟩ := r
  obtain rfl : rstk = c.state :: c.stack := hstk
  rfl

/-- C7: with a body, `align` builds `save(); Modify; body; restore()`,
so the alignment is scoped to the body: replaying anything appended
after the returned template starts from the original context, and in
particular the alignment observed after it equals the alignment before
it. -/
theorem align_save_restore_scoped :
    ∀ (horizontal vertical : Option Align) (body rest : List Op) (c : ReplayCtx),
    Balanced body →
    replay (alignBodyTemplate horizontal vertical body ++ rest) c = replay rest c ∧
      (replay (alignBodyTemplate horizontal vertical body) c).state.aligns =
        c.state.aligns := by
  intro horizontal vertical body rest c hb
  constructor
  · rw [replay_append, replay_alignBodyTemplate horizontal vertical hb c]
  · rw [replay_alignBodyTemplate horizontal vertical hb c]

/-- Witness for C7: a vertical `align` around one content item followed
by another content item, replayed from the sample State. -/
theorem align_save_restore_scoped_witness :
    Balanced [Op.content 0] ∧
      replay (alignBodyTemplate none (some .top) [Op.content 0] ++ [Op.content 1])
          ⟨sampleState, []⟩ =
        replay [Op.content 1] ⟨sampleState, []⟩ :=
  ⟨Balanced.content 0 [] Balanced.nil,
    (align_save_restore_scoped none (some .top) [Op.content 0] [Op.content 1]
      ⟨sampleState, []⟩ (Balanced.content 0 [] Balanced.nil)).1⟩

/-- C8: the `margins` blanket value is applied before the per-side
overrides, so giving `margins = M` together with one per-side value `L`
yields `L` on that side and `M` on the other three, for every side; the
arguments are fetched by name, so declaration order cannot reach the
closure. -/
theorem page_margin_precedence :
    ∀ (M L : Linear) (s : State),
    (pageModify { margins := some M, left := some L } s).page.margins =
      ⟨some L, some M, some M, some M⟩ ∧
    (pageModify { margins := some M, top := some L } s).page.margins =
      ⟨some M, some L, some M, some M⟩ ∧
    (pageModify { margins := some M, right := some L } s).page.margins =
      ⟨some M, some M, some L, some M⟩ ∧
    (pageModify { margins := some M, bottom := some L } s).page.margins =
      ⟨some M, some M, some M, some L⟩ := by
  intro M L s
  exact ⟨rfl, rfl, rfl, rfl⟩

/-- C9: flipping is applied last, so `page(width = W, height = H,
flip = true)` leaves the size `(H, W)`, and a second `page(flip = true)`
restores `(W, H)`. -/
theorem page_flip_applied_last :
    ∀ (W H : Linear) (s : State),
    (pageModify { width := some W, height := some H, flip := some true } s).page.size =
      ⟨H, W⟩ ∧
    (pageModify { flip := some true }
        (pageModify { width := some W, height := some H, flip := some true } s)).page.size =
      ⟨W, H⟩ := by
  intro W H s
  exact ⟨rfl, rfl⟩

/-- C10: a grid track-list argument cast from a nonnegative integer `N`
is `N` auto tracks; cast from an array it keeps exactly the elements
that cast to a track sizing, silently dropping the rest and never
failing. -/
theorem grid_tracklist_cast :
    (∀ (n : Int), 0 ≤ n →
      ∃ ts, castTrackList (.int n) = some ts ∧ (ts.length : Int) = n ∧
        ∀ t ∈ ts, t = TrackSizing.auto) ∧
    (∀ (vs : List Value),
      castTrackList (.array vs) = some (vs.filterMap castTrackSizing)) ∧
    castTrackList (.array [.auto, .boolean true, .length 5, .str "x", .fractional 2]) =
      some [.auto, .linear ⟨5, 0⟩, .fractional 2] := by
  refine ⟨?_, fun vs => rfl, rfl⟩
  intro n hn
  refine ⟨List.replicate (max n 0).toNat .auto, rfl, ?_, ?_⟩
  · simp only [List.length_replicate]
    omega
  · intro t ht
    exact List.eq_of_mem_replicate ht

/-- Witness for C10: casting the integer 3 yields three auto tracks. -/
theorem grid_tracklist_cast_witness :
    (0 : Int) ≤ 3 ∧
      ∃ ts, castTrackList (.int 3) = some ts ∧ (ts.length : Int) = 3 ∧
        ∀ t ∈ ts, t = TrackSizing.auto :=
  ⟨by decide, grid_tracklist_cast.1 3 (by decide)⟩

end Typst
